import Mathlib

/-
Verification of the AI-Voice-Assistant-Ideas-Platform web UI.

The development shallowly embeds the client-side logic of the repository:
the audio-capture component (AudioRecorder), the structured idea form
(IdeaForm.tsx), the page-level mode controller, and the HTTP helper
(api.ts).  Pure computations (string trimming, completeness percentage,
label formatting, mime-type negotiation) become Lean functions; the
stateful React components become explicit state-passing functions, and
the recorder becomes a step relation on a small state type.
-/

namespace VoiceIdeas

/-! ## String utilities mirroring the JavaScript built-ins used by the code -/

/-- Whitespace recognizer matching the JavaScript String.prototype.trim
whitespace class (WhiteSpace plus LineTerminator code points). -/
def isJsWhitespace (c : Char) : Bool :=
  c = ' ' || c = '\t' || c = '\n' || c = '\r' ||
  c.toNat = 0x0B || c.toNat = 0x0C || c.toNat = 0xA0 ||
  c.toNat = 0x1680 || (0x2000 ≤ c.toNat && c.toNat ≤ 0x200A) ||
  c.toNat = 0x2028 || c.toNat = 0x2029 || c.toNat = 0x202F ||
  c.toNat = 0x205F || c.toNat = 0x3000 || c.toNat = 0xFEFF

/-- Trimming on character lists: drop whitespace from both ends. -/
def jsTrimList (l : List Char) : List Char :=
  ((l.dropWhile isJsWhitespace).reverse.dropWhile isJsWhitespace).reverse

/-- Model of JavaScript String.prototype.trim. -/
def jsTrim (s : String) : String :=
  ⟨jsTrimList s.data⟩

/-- Boolean test that one character list starts with another
(model of a prefix test, used to build the substring test below). -/
def leadsWith : List Char → List Char → Bool
  | [], _ => true
  | _ :: _, [] => false
  | a :: as, b :: bs => if a = b then leadsWith as bs else false

/-- Boolean substring test on character lists: model of
JavaScript String.prototype.includes. -/
def containsSub : List Char → List Char → Bool
  | [], needle => needle.isEmpty
  | a :: t, needle => leadsWith needle (a :: t) || containsSub t needle

/-! ## Data model (src/web/src/lib/types.ts) -/

/-- The three input modes of the page (types.ts InputMode). -/
inductive InputMode
  | record
  | upload
  | text
deriving DecidableEq, Repr

/-- Priority enum of a draft idea (types.ts DraftIdea.priority). -/
inductive Priority
  | low
  | medium
  | high
deriving DecidableEq, Repr

/-- The keys of a DraftIdea record (types.ts DraftIdea). -/
inductive Field
  | title
  | summary
  | problem
  | proposed_solution
  | target_audience
  | expected_impact
  | category
  | priority
  | keywords
deriving DecidableEq, Repr

/-- Structured idea record (types.ts DraftIdea). -/
structure DraftIdea where
  title : String
  summary : String
  problem : String
  proposed_solution : String
  target_audience : String
  expected_impact : String
  category : Option String
  priority : Option Priority
  keywords : Option (List String)
deriving DecidableEq, Repr

/-- Field provenance status (types.ts FieldStatus). -/
inductive FieldStatus
  | confirmed
  | guessed
  | missing
deriving DecidableEq, Repr

/-- Per-field status and confidence (types.ts FieldMeta). -/
structure FieldMeta where
  status : FieldStatus
  confidence : ℚ
deriving DecidableEq, Repr

/-- Transcription endpoint response (types.ts TranscribeResponse). -/
structure TranscribeResponse where
  transcript : String
  language : String
  dialect_hint : Option String
deriving DecidableEq, Repr

/-- Extraction endpoint response (types.ts ExtractionResponse).  The
field-meta map is modelled as a function from keys to optional metadata,
matching a partial JavaScript record object. -/
structure ExtractionResponse where
  draft : DraftIdea
  field_meta : Field → Option FieldMeta
  missing_fields : List Field
  questions : List String

/-- Clarification endpoint response (types.ts ClarifyResponse). -/
structure ClarifyResponse where
  draft : DraftIdea
  field_meta : Field → Option FieldMeta
  missing_fields : List Field
  questions : List String

/-- Submission endpoint response (types.ts SubmitResponse). -/
structure SubmitResponse where
  id : String
deriving DecidableEq, Repr

/-! ## IdeaForm pure helpers (src/web/src/components/IdeaForm.tsx) -/

/-- Key string of each DraftIdea field, as written in the source. -/
def fieldKey : Field → String
  | .title => "title"
  | .summary => "summary"
  | .problem => "problem"
  | .proposed_solution => "proposed_solution"
  | .target_audience => "target_audience"
  | .expected_impact => "expected_impact"
  | .category => "category"
  | .priority => "priority"
  | .keywords => "keywords"

/-- The ordered list of required fields (IdeaForm.tsx REQUIRED_FIELDS). -/
def REQUIRED_FIELDS : List Field :=
  [.title, .summary, .problem, .proposed_solution, .target_audience, .expected_impact]

/-- Word character in the sense of the JavaScript regex class backslash-w. -/
def jsWordChar (c : Char) : Bool :=
  c.isAlpha || c.isDigit || c = '_'

/-- Uppercase every word character that starts a word, tracking whether the
previous character was a word character (model of replacing every match of
a word-boundary-then-word-char regex by its uppercase). -/
def capWordsAux : Bool → List Char → List Char
  | _, [] => []
  | prevWord, c :: t =>
    let isW := jsWordChar c
    (if isW && !prevWord then c.toUpper else c) :: capWordsAux isW t

/-- Display label of a field key (IdeaForm.tsx labelOf): underscores become
spaces, then the first character of each word is uppercased. -/
def labelOf (f : Field) : String :=
  ⟨capWordsAux false ((fieldKey f).data.map (fun c => if c = '_' then ' ' else c))⟩

/-- Priority enum as the string the JavaScript value holds. -/
def priorityStr : Priority → String
  | .low => "low"
  | .medium => "medium"
  | .high => "high"

/-- The non-empty test the form applies to a draft value (IdeaForm.tsx,
inside completeness and stillMissing): strings are trimmed and tested for
positive length, non-string values are tested for truthiness. -/
def fieldFilled (d : DraftIdea) : Field → Bool
  | .title => decide (0 < (jsTrim d.title).length)
  | .summary => decide (0 < (jsTrim d.summary).length)
  | .problem => decide (0 < (jsTrim d.problem).length)
  | .proposed_solution => decide (0 < (jsTrim d.proposed_solution).length)
  | .target_audience => decide (0 < (jsTrim d.target_audience).length)
  | .expected_impact => decide (0 < (jsTrim d.expected_impact).length)
  | .category =>
    match d.category with
    | some s => decide (0 < (jsTrim s).length)
    | none => false
  | .priority =>
    match d.priority with
    | some p => decide (0 < (jsTrim (priorityStr p)).length)
    | none => false
  | .keywords => d.keywords.isSome

/-- Model of JavaScript Math.round on the nonnegative rationals the form
produces: the floor of the argument plus one half. -/
def mathRound (q : ℚ) : ℤ :=
  ⌊q + 1 / 2⌋

/-- Number of required fields whose value is non-empty after trimming. -/
def countFilled (d : DraftIdea) : ℕ :=
  (REQUIRED_FIELDS.filter (fieldFilled d)).length

/-- Completeness percentage (IdeaForm.tsx completeness): the rounded
percentage of required fields that are filled. -/
def completeness (d : DraftIdea) : ℤ :=
  mathRound (((countFilled d : ℚ) / (REQUIRED_FIELDS.length : ℚ)) * 100)

/-- The required fields that are still empty (IdeaForm.tsx stillMissing). -/
def stillMissing (d : DraftIdea) : List Field :=
  REQUIRED_FIELDS.filter (fun f => !fieldFilled d f)

/-! ## IdeaForm state and handlers -/

/-- The value type carried by each DraftIdea key. -/
def FieldTy : Field → Type
  | .title => String
  | .summary => String
  | .problem => String
  | .proposed_solution => String
  | .target_audience => String
  | .expected_impact => String
  | .category => Option String
  | .priority => Option Priority
  | .keywords => Option (List String)

/-- Functional record update of one draft key (the object spread in
updateField). -/
def setField (d : DraftIdea) : (k : Field) → FieldTy k → DraftIdea
  | .title, v => { d with title := v }
  | .summary, v => { d with summary := v }
  | .problem, v => { d with problem := v }
  | .proposed_solution, v => { d with proposed_solution := v }
  | .target_audience, v => { d with target_audience := v }
  | .expected_impact, v => { d with expected_impact := v }
  | .category, v => { d with category := v }
  | .priority, v => { d with priority := v }
  | .keywords, v => { d with keywords := v }

/-- The form state owned by IdeaForm: draft, clarification questions,
missing-field list, per-field metadata, and the free-text answer buffer. -/
structure FormState where
  draft : DraftIdea
  questions : List String
  missingFields : List Field
  fieldMeta : Field → Option FieldMeta
  answersText : String

/-- Kind of a transient notification. -/
inductive ToastKind
  | ok
  | err
deriving DecidableEq, Repr

/-- A transient notification (IdeaForm.tsx toast). -/
structure Toast where
  kind : ToastKind
  text : String
deriving DecidableEq, Repr

/-- IdeaForm.tsx updateField: writes the edited value into the draft and
forces the metadata of the edited key to confirmed with confidence 1. -/
def updateField (st : FormState) (k : Field) (v : FieldTy k) : FormState :=
  { st with
    draft := setField st.draft k v
    fieldMeta := fun j => if j = k then some ⟨.confirmed, 1⟩ else st.fieldMeta j }

/-- Body of a clarify request (api.ts clarifyIdea params). -/
structure ClarifyRequest where
  draft : DraftIdea
  answers_text : String
  questions : List String

/-- Body of a submit request (api.ts submitIdea params). -/
structure SubmitRequest where
  transcript : String
  language : Option String
  dialect_hint : Option String
  draft : DraftIdea

/-- Component props that runSubmit forwards (IdeaForm props transcript,
language, dialect_hint). -/
structure SubmitCtx where
  transcript : String
  language : Option String
  dialect_hint : Option String

/-- Result of one invocation of a form handler: the new state, the toast
it showed, and the list of requests it sent to the backend. -/
structure HandlerOut (Req : Type) where
  state : FormState
  toast : Toast
  requests : List Req

/-- Error message thrown by the HTTP helper on a non-2xx response
(api.ts http): the status code followed by the body text, falling back to
the status text when the body is empty. -/
def httpErrMsg (status : ℕ) (body statusText : String) : String :=
  "API " ++ toString status ++ ": " ++ (if body = "" then statusText else body)

/-- IdeaForm.tsx runClarification, with the network outcome passed in
explicitly: an empty trimmed answer buffer short-circuits with an error
toast and no request; a successful response replaces draft, metadata,
missing fields and questions wholesale and clears the answer buffer; a
failure shows the error message and changes nothing. -/
def runClarification (st : FormState) (outcome : Except String ClarifyResponse) :
    HandlerOut ClarifyRequest :=
  if jsTrim st.answersText = "" then
    ⟨st, ⟨.err, "Type or record your answers first (one message is fine)."⟩, []⟩
  else
    match outcome with
    | .ok r =>
      ⟨{ st with
          draft := r.draft
          fieldMeta := r.field_meta
          missingFields := r.missing_fields
          questions := r.questions
          answersText := "" },
        ⟨.ok, "Updated with your clarification ✅"⟩,
        [⟨st.draft, st.answersText, st.questions⟩]⟩
    | .error msg =>
      ⟨st, ⟨.err, if msg = "" then "Clarification failed." else msg⟩,
        [⟨st.draft, st.answersText, st.questions⟩]⟩

/-- IdeaForm.tsx runSubmit, with the network outcome passed in explicitly:
when required fields are missing it shows the enumerated list and sends
nothing; otherwise it sends one submit request and reports the outcome. -/
def runSubmit (st : FormState) (ctx : SubmitCtx)
    (outcome : Except String SubmitResponse) : HandlerOut SubmitRequest :=
  if 0 < (stillMissing st.draft).length then
    ⟨st,
      ⟨.err, "Missing required fields: " ++
        String.intercalate ", " ((stillMissing st.draft).map labelOf)⟩,
      []⟩
  else
    match outcome with
    | .ok r =>
      ⟨st, ⟨.ok, "Submitted ✅ (id: " ++ r.id ++ ")"⟩,
        [⟨ctx.transcript, ctx.language, ctx.dialect_hint, st.draft⟩]⟩
    | .error msg =>
      ⟨st, ⟨.err, if msg = "" then "Submit failed." else msg⟩,
        [⟨ctx.transcript, ctx.language, ctx.dialect_hint, st.draft⟩]⟩

/-! ## AudioRecorder (src/unnamed/part_000) -/

/-- The ordered encoding preference list (AudioRecorder pickMimeType). -/
def mimeCandidates : List String :=
  ["audio/webm;codecs=opus", "audio/webm", "audio/ogg;codecs=opus", "audio/ogg"]

/-- AudioRecorder pickMimeType: the first candidate the platform reports
as supported, or the empty string when none is. -/
def pickMimeType (supported : String → Bool) : String :=
  match mimeCandidates.find? supported with
  | some c => c
  | none => ""

/-- The file emitted to the caller when recording stops. -/
structure RecordedFile where
  name : String
  mime : String
  content : List ℕ
deriving DecidableEq, Repr

/-- The onstop handler of the recorder (AudioRecorder rec.onstop): the
accumulated chunks become one blob tagged with the recorder encoding
(defaulting to audio/webm when that is empty), and the emitted file is
named with extension ogg when the encoding mentions ogg and webm
otherwise. -/
def onstopFile (recMime : String) (chunks : List (List ℕ)) : RecordedFile :=
  let mime := if recMime = "" then "audio/webm" else recMime
  let ext := if containsSub mime.data "ogg".data then "ogg" else "webm"
  { name := "recording." ++ ext, mime := mime, content := chunks.flatten }

/-- Events a user session can drive through the AudioRecorder buttons:
a start click whose device acquisition succeeds, a start click whose
device acquisition fails, and a stop click. -/
inductive RecEvent
  | startOk
  | startErr
  | stopClick
deriving DecidableEq, Repr

/-- Observable recorder state: the recording flag, whether a device
stream is currently held, and counters of successful starts and of
device-release calls. -/
structure RecState where
  isRecording : Bool
  streamHeld : Bool
  startCount : ℕ
  releaseCount : ℕ
deriving DecidableEq, Repr

/-- Initial recorder state: idle, no stream, no starts, no releases. -/
def recInit : RecState :=
  ⟨false, false, 0, 0⟩

/-- One user interaction with the AudioRecorder.  The button offers start
only while idle and stop only while recording, so events are guarded
accordingly.  A successful start acquires the stream and begins
recording; a failed start only surfaces a permission message; a stop
click stops the recorder, whose onstop handler releases every track of
the held stream and clears the stream reference.  Per the concurrency
model of the spec, the onstop handler is folded into the stop step. -/
def recStep (s : RecState) : RecEvent → Option RecState
  | .startOk =>
    if s.isRecording then none
    else some ⟨true, true, s.startCount + 1, s.releaseCount⟩
  | .startErr =>
    if s.isRecording then none else some s
  | .stopClick =>
    if s.isRecording then
      some ⟨false, false, s.startCount,
        s.releaseCount + (if s.streamHeld then 1 else 0)⟩
    else none

/-- Run a sequence of interactions from a given state; the run fails if
an event is not available in the current state. -/
def recRun (s : RecState) : List RecEvent → Option RecState
  | [] => some s
  | e :: es =>
    match recStep s e with
    | some s2 => recRun s2 es
    | none => none

/-! ## Page component (src/unnamed/part_001) -/

/-- Page-level state: the active input mode, the captured or selected
audio file, the manual text buffer, the transcription and extraction
results, the busy flag and the error message. -/
structure PageState where
  mode : InputMode
  audioFile : Option RecordedFile
  manualText : String
  transcribeRes : Option TranscribeResponse
  extraction : Option ExtractionResponse
  busy : Bool
  error : Option String

/-- The ModeSelector setMode handler in Page: switches the mode and
clears the audio file, the transcription result, the extraction result
and the error message. -/
def switchMode (s : PageState) (m : InputMode) : PageState :=
  { s with
    mode := m
    audioFile := none
    transcribeRes := none
    extraction := none
    error := none }

/-- Page transcriptText: in text mode the trimmed manual text, otherwise
the trimmed transcription result or the empty string. -/
def transcriptText (s : PageState) : String :=
  match s.mode with
  | .text => jsTrim s.manualText
  | _ =>
    match s.transcribeRes with
    | some t => jsTrim t.transcript
    | none => ""

/-! ## General lemmas about the helpers -/

/-- Rounding to the nearest integer: mathRound lands within one half of
its argument. -/
theorem mathRound_close (q : ℚ) : |(mathRound q : ℚ) - q| ≤ 1 / 2 := by
  unfold mathRound
  have h1 : ((⌊q + 1 / 2⌋ : ℚ)) ≤ q + 1 / 2 := Int.floor_le _
  have h2 : q + 1 / 2 - 1 < ((⌊q + 1 / 2⌋ : ℚ)) := Int.sub_one_lt_floor _
  rw [abs_le]
  constructor <;> linarith

/-- A list leads with itself followed by anything. -/
theorem leadsWith_append (b post : List Char) : leadsWith b (b ++ post) = true := by
  induction b with
  | nil => rfl
  | cons a t ih => simp [leadsWith, ih]

/-- The empty list is a substring of every list. -/
theorem containsSub_nil (hay : List Char) : containsSub hay [] = true := by
  cases hay <;> simp [containsSub, leadsWith]

/-- A list contains itself followed by anything. -/
theorem containsSub_here (b post : List Char) : containsSub (b ++ post) b = true := by
  cases b with
  | nil => simpa using containsSub_nil post
  | cons a t =>
    show containsSub (a :: (t ++ post)) (a :: t) = true
    simp [containsSub, leadsWith, leadsWith_append]

/-- Any middle segment of a concatenation is a substring of it. -/
theorem containsSub_append (pre b post : List Char) :
    containsSub (pre ++ b ++ post) b = true := by
  induction pre with
  | nil => simpa using containsSub_here b post
  | cons a t ih =>
    show containsSub (a :: (t ++ b ++ post)) b = true
    have ih2 : containsSub (t ++ (b ++ post)) b = true := by
      simpa [List.append_assoc] using ih
    simp [containsSub, ih2]

/-- Sample concrete inputs reused by the witness theorems below. -/
def draftMissingTitle : DraftIdea :=
  ⟨"", "x", "x", "x", "x", "x", none, none, none⟩

/-- Sample field-meta assignment for the witnesses. -/
def metaW : Field → Option FieldMeta :=
  fun _ => some ⟨.guessed, 1 / 2⟩

/-- Sample form state for the witnesses. -/
def formW : FormState :=
  ⟨draftMissingTitle, ["q1"], [.title], metaW, "ans"⟩

/-- Sample submit context for the witnesses. -/
def ctxW : SubmitCtx :=
  ⟨"tr", some "en", none⟩

/-! ## Claims -/

/-- C2: for every draft the completeness percentage equals
100 times the number of non-empty required fields divided by 6, rounded
to the nearest integer (the rounded value is within one half of the
exact ratio); in particular a draft with an empty title and the other
five required fields non-empty yields completeness 83. -/
theorem claim_C2_completeness :
    (∀ d : DraftIdea,
      completeness d = mathRound (100 * (countFilled d : ℚ) / 6) ∧
      |(completeness d : ℚ) - 100 * (countFilled d : ℚ) / 6| ≤ 1 / 2) ∧
    completeness ⟨"", "x", "x", "x", "x", "x", none, none, none⟩ = 83 := by
  constructor
  · intro d
    have hlen : ((REQUIRED_FIELDS.length : ℚ)) = 6 := by norm_num [REQUIRED_FIELDS]
    have harg : ((countFilled d : ℚ) / (REQUIRED_FIELDS.length : ℚ)) * 100
        = 100 * (countFilled d : ℚ) / 6 := by rw [hlen]; ring
    refine ⟨?_, ?_⟩
    · unfold completeness
      rw [harg]
    · unfold completeness
      rw [harg]
      exact mathRound_close _
  · have h : countFilled ⟨"", "x", "x", "x", "x", "x", none, none, none⟩ = 5 := by decide
    unfold completeness mathRound
    rw [h]
    norm_num [REQUIRED_FIELDS, Int.floor_eq_iff]

/-- C4: editing any field via updateField sets that field to confirmed
with confidence 1, whatever its prior metadata, and leaves the metadata
of every other field unchanged. -/
theorem claim_C4_updateField (st : FormState) (k : Field) (v : FieldTy k) :
    (updateField st k v).fieldMeta k = some ⟨.confirmed, 1⟩ ∧
    (∀ j : Field, j ≠ k → (updateField st k v).fieldMeta j = st.fieldMeta j) := by
  refine ⟨?_, ?_⟩
  · simp [updateField]
  · intro j hj
    simp [updateField, hj]

/-- Witness for C4 at a concrete state: editing the title confirms the
title and keeps the summary metadata. -/
theorem claim_C4_witness :
    (updateField formW .title "new").fieldMeta .title = some ⟨.confirmed, 1⟩ ∧
    (updateField formW .title "new").fieldMeta .summary = formW.fieldMeta .summary :=
  ⟨(claim_C4_updateField formW .title "new").1,
   (claim_C4_updateField formW .title "new").2 .summary (by decide)⟩

/-- C5: switching input mode sets the new mode and clears the audio
file, the transcription result, the extraction result and the error
message. -/
theorem claim_C5_switchMode_clears (s : PageState) (m : InputMode) :
    (switchMode s m).mode = m ∧
    (switchMode s m).audioFile = none ∧
    (switchMode s m).transcribeRes = none ∧
    (switchMode s m).extraction = none ∧
    (switchMode s m).error = none :=
  ⟨rfl, rfl, rfl, rfl, rfl⟩

/-- C10: switching input mode never clears the manual text buffer;
after switching away and back to text mode the typed text is intact and
the displayed transcript is again its trimmed value. -/
theorem claim_C10_manualText_kept (s : PageState) (m : InputMode) :
    (switchMode s m).manualText = s.manualText ∧
    (switchMode (switchMode s m) .text).manualText = s.manualText ∧
    transcriptText (switchMode (switchMode s m) .text) = jsTrim s.manualText :=
  ⟨rfl, rfl, rfl⟩

/-- C3: with at least one required field empty, runSubmit leaves the
whole form state unchanged, sends no request, and shows a rejection
message enumerating exactly the empty required fields by display name. -/
theorem claim_C3_submit_blocked (st : FormState) (ctx : SubmitCtx)
    (outcome : Except String SubmitResponse) (h : stillMissing st.draft ≠ []) :
    (runSubmit st ctx outcome).state = st ∧
    (runSubmit st ctx outcome).requests = [] ∧
    (runSubmit st ctx outcome).toast =
      ⟨.err, "Missing required fields: " ++
        String.intercalate ", " ((stillMissing st.draft).map labelOf)⟩ ∧
    (∀ f : Field, f ∈ stillMissing st.draft ↔
      f ∈ REQUIRED_FIELDS ∧ fieldFilled st.draft f = false) := by
  have hpos : 0 < (stillMissing st.draft).length := List.length_pos.mpr h
  unfold runSubmit
  rw [if_pos hpos]
  refine ⟨rfl, rfl, rfl, ?_⟩
  intro f
  unfold stillMissing
  rw [List.mem_filter]
  simp

/-- Witness for C3 at a concrete state whose draft has an empty title:
no request is sent and the toast names exactly the title field. -/
theorem claim_C3_witness :
    (runSubmit formW ctxW (.error "boom")).requests = [] ∧
    (runSubmit formW ctxW (.error "boom")).toast =
      ⟨.err, "Missing required fields: Title"⟩ := by
  have h := claim_C3_submit_blocked formW ctxW (.error "boom") (by decide)
  refine ⟨h.2.1, ?_⟩
  rw [h.2.2.1]
  decide

/-- C6: a successful clarification round-trip sends one request carrying
the current draft, answer buffer and outstanding questions, replaces the
draft, field metadata, missing-field list and questions wholesale with
the response values, and clears the answer buffer. -/
theorem claim_C6_clarify_success (st : FormState) (r : ClarifyResponse)
    (h : jsTrim st.answersText ≠ "") :
    (runClarification st (.ok r)).requests =
      [⟨st.draft, st.answersText, st.questions⟩] ∧
    (runClarification st (.ok r)).state.draft = r.draft ∧
    (runClarification st (.ok r)).state.fieldMeta = r.field_meta ∧
    (runClarification st (.ok r)).state.missingFields = r.missing_fields ∧
    (runClarification st (.ok r)).state.questions = r.questions ∧
    (runClarification st (.ok r)).state.answersText = "" := by
  unfold runClarification
  rw [if_neg h]
  exact ⟨rfl, rfl, rfl, rfl, rfl, rfl⟩

/-- Sample clarify response for the C6 witness. -/
def respW : ClarifyResponse :=
  ⟨⟨"t", "s", "p", "q", "a", "e", none, none, none⟩, fun _ => none, [], []⟩

/-- Witness for C6 at a concrete state with a non-empty answer buffer. -/
theorem claim_C6_witness :
    (runClarification formW (.ok respW)).state.draft = respW.draft ∧
    (runClarification formW (.ok respW)).state.answersText = "" ∧
    (runClarification formW (.ok respW)).requests =
      [⟨formW.draft, formW.answersText, formW.questions⟩] := by
  have h := claim_C6_clarify_success formW respW (by decide)
  exact ⟨h.2.1, h.2.2.2.2.2, h.1⟩

/-- Appending to a nonempty string on the left never yields the empty
string. -/
theorem append_ne_empty_left (a b : String) (h : a.data ≠ []) : a ++ b ≠ "" := by
  intro hc
  have h2 := congrArg String.data hc
  rw [String.data_append] at h2
  exact h (List.append_eq_nil.mp h2).1

/-- The HTTP error message is never the empty string. -/
theorem httpErrMsg_ne_empty (status : ℕ) (body statusText : String) :
    httpErrMsg status body statusText ≠ "" := by
  unfold httpErrMsg
  apply append_ne_empty_left
  rw [String.data_append]
  intro hc
  rcases List.append_eq_nil.mp hc with ⟨h1, _⟩
  rw [String.data_append] at h1
  rcases List.append_eq_nil.mp h1 with ⟨h2, _⟩
  exact absurd h2 (by decide)

/-- Normal form of the characters of the HTTP error message. -/
theorem httpErrMsg_data (status : ℕ) (body statusText : String) :
    (httpErrMsg status body statusText).data =
      "API ".data ++ ((toString status).data ++
        (": ".data ++ (if body = "" then statusText else body).data)) := by
  unfold httpErrMsg
  simp [String.data_append, List.append_assoc]

/-- The HTTP error message contains the decimal status code. -/
theorem httpErrMsg_has_status (status : ℕ) (body statusText : String) :
    containsSub (httpErrMsg status body statusText).data (toString status).data = true := by
  rw [httpErrMsg_data]
  have h := containsSub_append "API ".data (toString status).data
    (": ".data ++ (if body = "" then statusText else body).data)
  simpa [List.append_assoc] using h

/-- The HTTP error message contains the response body text. -/
theorem httpErrMsg_has_body (status : ℕ) (body statusText : String) :
    containsSub (httpErrMsg status body statusText).data body.data = true := by
  by_cases hb : body = ""
  · subst hb
    exact containsSub_nil _
  · rw [httpErrMsg_data, if_neg hb]
    have h := containsSub_append ("API ".data ++ ((toString status).data ++ ": ".data))
      body.data []
    simpa [List.append_assoc] using h

/-- C7: every remote-call failure, whatever its message (a network error
or a non-2xx response), leaves the entire form state unchanged in both
the clarification and the submission handler and sends at most one
request (no retry); when the request was actually made the failure is
surfaced only as one error toast carrying the message (with the handler
fallback text when the message is empty), and for a non-2xx response the
message is the HTTP error text, which contains the decimal status code
and the response body text. -/
theorem claim_C7_remote_failure (st : FormState) (ctx : SubmitCtx) :
    (∀ msg : String,
      (runClarification st (.error msg)).state = st ∧
      (runClarification st (.error msg)).requests.length ≤ 1 ∧
      (runSubmit st ctx (.error msg)).state = st ∧
      (runSubmit st ctx (.error msg)).requests.length ≤ 1 ∧
      (jsTrim st.answersText ≠ "" →
        (runClarification st (.error msg)).toast =
          ⟨.err, if msg = "" then "Clarification failed." else msg⟩) ∧
      (stillMissing st.draft = [] →
        (runSubmit st ctx (.error msg)).toast =
          ⟨.err, if msg = "" then "Submit failed." else msg⟩)) ∧
    (∀ (status : ℕ) (body statusText : String),
      (jsTrim st.answersText ≠ "" →
        (runClarification st (.error (httpErrMsg status body statusText))).toast =
          ⟨.err, httpErrMsg status body statusText⟩) ∧
      (stillMissing st.draft = [] →
        (runSubmit st ctx (.error (httpErrMsg status body statusText))).toast =
          ⟨.err, httpErrMsg status body statusText⟩) ∧
      containsSub (httpErrMsg status body statusText).data (toString status).data = true ∧
      containsSub (httpErrMsg status body statusText).data body.data = true) := by
  refine ⟨?_, ?_⟩
  · intro msg
    refine ⟨?_, ?_, ?_, ?_, ?_, ?_⟩
    · by_cases hjs : jsTrim st.answersText = "" <;> simp [runClarification, hjs]
    · by_cases hjs : jsTrim st.answersText = "" <;> simp [runClarification, hjs]
    · by_cases hm : 0 < (stillMissing st.draft).length <;> simp [runSubmit, hm]
    · by_cases hm : 0 < (stillMissing st.draft).length <;> simp [runSubmit, hm]
    · intro hjs
      unfold runClarification
      rw [if_neg hjs]
    · intro hm
      have hnm : ¬ 0 < (stillMissing st.draft).length := by
        rw [hm]
        simp
      unfold runSubmit
      rw [if_neg hnm]
  · intro status body statusText
    have hne := httpErrMsg_ne_empty status body statusText
    refine ⟨?_, ?_,
      httpErrMsg_has_status status body statusText,
      httpErrMsg_has_body status body statusText⟩
    · intro hjs
      unfold runClarification
      rw [if_neg hjs]
      simp [hne]
    · intro hm
      have hnm : ¬ 0 < (stillMissing st.draft).length := by
        rw [hm]
        simp
      unfold runSubmit
      rw [if_neg hnm]
      simp [hne]

/-- Sample form state with a fully filled draft, for the witnesses. -/
def formFull : FormState :=
  ⟨⟨"t", "s", "p", "q", "a", "e", none, none, none⟩, [], [], metaW, "ans"⟩

/-- Witness for C7 at a concrete state: once with an arbitrary
network-error message and once with status 404 and a body text. -/
theorem claim_C7_witness :
    (runClarification formFull (.error "Failed to fetch")).state = formFull ∧
    (runClarification formFull (.error "Failed to fetch")).toast =
      ⟨.err, "Failed to fetch"⟩ ∧
    (runSubmit formFull ctxW (.error (httpErrMsg 404 "boom" "NF"))).toast =
      ⟨.err, httpErrMsg 404 "boom" "NF"⟩ ∧
    containsSub (httpErrMsg 404 "boom" "NF").data (toString 404).data = true := by
  have h := claim_C7_remote_failure formFull ctxW
  refine ⟨(h.1 "Failed to fetch").1, ?_,
    (h.2 404 "boom" "NF").2.1 (by decide), (h.2 404 "boom" "NF").2.2.1⟩
  have h2 := (h.1 "Failed to fetch").2.2.2.2.1 (by decide)
  rw [h2]
  decide

/-- The string value held by a required draft field (helper for stating
C9; on the optional keys it returns the empty string). -/
def reqValue (d : DraftIdea) : Field → String
  | .title => d.title
  | .summary => d.summary
  | .problem => d.problem
  | .proposed_solution => d.proposed_solution
  | .target_audience => d.target_audience
  | .expected_impact => d.expected_impact
  | .category => ""
  | .priority => ""
  | .keywords => ""

/-- Trimming a string made of whitespace only yields the empty string. -/
theorem jsTrim_all_ws (s : String)
    (h : ∀ c ∈ s.data, isJsWhitespace c = true) : jsTrim s = "" := by
  unfold jsTrim jsTrimList
  have h1 : s.data.dropWhile isJsWhitespace = [] :=
    List.dropWhile_eq_nil_iff.mpr (by simpa using h)
  rw [h1]
  rfl

/-- Filtering with a predicate that rejects a present element shortens
the list strictly. -/
theorem length_filter_lt {α : Type} (p : α → Bool) (l : List α) (x : α)
    (hx : x ∈ l) (hp : p x = false) : (l.filter p).length < l.length := by
  induction l with
  | nil => cases hx
  | cons a t ih =>
    rcases List.mem_cons.mp hx with h | h
    · subst h
      simp only [List.filter_cons, hp, List.length_cons, Bool.false_eq_true,
        if_false]
      exact Nat.lt_succ_of_le (List.length_filter_le _ t)
    · have h2 := ih h
      cases hb : p a <;>
        simp only [List.filter_cons, hb, List.length_cons, Bool.false_eq_true,
          if_false, if_true] <;>
        omega

/-- C9: a required field whose value is whitespace only is treated as
empty: it fails the non-empty test, it is absent from the filled-field
filter so the filled count stays below six, and it appears in the
missing-field list that gates submission. -/
theorem claim_C9_whitespace_is_empty (d : DraftIdea) (f : Field)
    (hf : f ∈ REQUIRED_FIELDS)
    (hws : ∀ c ∈ (reqValue d f).data, isJsWhitespace c = true) :
    fieldFilled d f = false ∧
    f ∉ REQUIRED_FIELDS.filter (fieldFilled d) ∧
    countFilled d < REQUIRED_FIELDS.length ∧
    f ∈ stillMissing d := by
  have hlen : (jsTrim (reqValue d f)).length = 0 := by
    rw [jsTrim_all_ws (reqValue d f) hws]
    rfl
  have hff : fieldFilled d f = false := by
    have hf2 : f = .title ∨ f = .summary ∨ f = .problem ∨ f = .proposed_solution ∨
        f = .target_audience ∨ f = .expected_impact := by
      simpa [REQUIRED_FIELDS] using hf
    rcases hf2 with h | h | h | h | h | h <;> subst h <;>
      simp only [reqValue] at hlen <;> simp [fieldFilled, hlen]
  refine ⟨hff, ?_, ?_, ?_⟩
  · intro hmem
    rw [List.mem_filter] at hmem
    rw [hmem.2] at hff
    cases hff
  · exact length_filter_lt (fieldFilled d) REQUIRED_FIELDS f hf hff
  · unfold stillMissing
    rw [List.mem_filter]
    exact ⟨hf, by simp [hff]⟩

/-- Witness for C9: a draft whose title is two spaces has an unfilled
title, a filled count below six, and title among the missing fields. -/
theorem claim_C9_witness :
    fieldFilled ⟨"  ", "x", "x", "x", "x", "x", none, none, none⟩ .title = false ∧
    countFilled ⟨"  ", "x", "x", "x", "x", "x", none, none, none⟩ < REQUIRED_FIELDS.length ∧
    Field.title ∈ stillMissing ⟨"  ", "x", "x", "x", "x", "x", none, none, none⟩ := by
  have h := claim_C9_whitespace_is_empty
    ⟨"  ", "x", "x", "x", "x", "x", none, none, none⟩ .title (by decide) (by decide)
  exact ⟨h.1, h.2.2.1, h.2.2.2⟩

/-- One interaction step preserves the recorder resource invariant: the
stream is held exactly while recording, and the releases performed so
far equal the successful starts minus the one still active session. -/
theorem recStep_inv {s s2 : RecState} {e : RecEvent}
    (hI : s.streamHeld = s.isRecording ∧
      s.releaseCount + (if s.isRecording then 1 else 0) = s.startCount)
    (h : recStep s e = some s2) :
    s2.streamHeld = s2.isRecording ∧
      s2.releaseCount + (if s2.isRecording then 1 else 0) = s2.startCount := by
  obtain ⟨h1, h2⟩ := hI
  cases e with
  | startOk =>
    unfold recStep at h
    cases hr : s.isRecording with
    | true => rw [hr] at h; cases h
    | false =>
      rw [hr] at h
      simp only [Bool.false_eq_true, reduceIte] at h
      cases h
      rw [hr] at h2
      refine ⟨rfl, ?_⟩
      simp at h2 ⊢
      omega
  | startErr =>
    unfold recStep at h
    cases hr : s.isRecording with
    | true => rw [hr] at h; cases h
    | false =>
      rw [hr] at h
      simp only [Bool.false_eq_true, reduceIte] at h
      cases h
      exact ⟨h1, h2⟩
  | stopClick =>
    unfold recStep at h
    cases hr : s.isRecording with
    | false =>
      rw [hr] at h
      simp only [Bool.false_eq_true, reduceIte] at h
      cases h
    | true =>
      rw [hr] at h
      simp only [reduceIte] at h
      cases h
      rw [hr] at h1 h2
      refine ⟨rfl, ?_⟩
      simp [h1] at h2 ⊢
      omega

/-- Running any interaction sequence preserves the recorder invariant. -/
theorem recRun_inv (tr : List RecEvent) :
    ∀ s0 s : RecState,
      (s0.streamHeld = s0.isRecording ∧
        s0.releaseCount + (if s0.isRecording then 1 else 0) = s0.startCount) →
      recRun s0 tr = some s →
      (s.streamHeld = s.isRecording ∧
        s.releaseCount + (if s.isRecording then 1 else 0) = s.startCount) := by
  induction tr with
  | nil =>
    intro s0 s h0 hrun
    unfold recRun at hrun
    cases hrun
    exact h0
  | cons e es ih =>
    intro s0 s h0 hrun
    unfold recRun at hrun
    cases hstep : recStep s0 e with
    | none => rw [hstep] at hrun; cases hrun
    | some s1 =>
      rw [hstep] at hrun
      exact ih s1 s (recStep_inv h0 hstep) hrun

/-- C1: along every realizable sequence of start/stop interactions, the
device stream is held exactly while recording, the number of release
calls equals the number of successful starts minus the one still-active
session (so exactly one release per completed start), a release can only
happen on a stop step and then exactly once, and a stop in a recording
state performs exactly one release and drops the stream. -/
theorem claim_C1_release_per_start (tr : List RecEvent) (s : RecState)
    (h : recRun recInit tr = some s) :
    (s.streamHeld = s.isRecording ∧
      s.releaseCount + (if s.isRecording then 1 else 0) = s.startCount) ∧
    (s.isRecording = false → s.releaseCount = s.startCount) ∧
    (∀ (e : RecEvent) (s2 : RecState), recStep s e = some s2 →
      s2.releaseCount = s.releaseCount ∨
        (e = RecEvent.stopClick ∧ s2.releaseCount = s.releaseCount + 1)) ∧
    (s.isRecording = true → ∀ s2 : RecState, recStep s RecEvent.stopClick = some s2 →
      s2.releaseCount = s.releaseCount + 1 ∧ s2.streamHeld = false) := by
  have hI := recRun_inv tr recInit s ⟨rfl, rfl⟩ h
  refine ⟨hI, ?_, ?_, ?_⟩
  · intro hrec
    have h2 := hI.2
    rw [hrec] at h2
    simpa using h2
  · intro e s2 hstep
    cases e with
    | startOk =>
      unfold recStep at hstep
      cases hr : s.isRecording with
      | true => rw [hr] at hstep; cases hstep
      | false =>
        rw [hr] at hstep
        simp only [Bool.false_eq_true, reduceIte] at hstep
        cases hstep
        exact Or.inl rfl
    | startErr =>
      unfold recStep at hstep
      cases hr : s.isRecording with
      | true => rw [hr] at hstep; cases hstep
      | false =>
        rw [hr] at hstep
        simp only [Bool.false_eq_true, reduceIte] at hstep
        cases hstep
        exact Or.inl rfl
    | stopClick =>
      unfold recStep at hstep
      cases hr : s.isRecording with
      | false =>
        rw [hr] at hstep
        simp only [Bool.false_eq_true, reduceIte] at hstep
        cases hstep
      | true =>
        rw [hr] at hstep
        simp only [reduceIte] at hstep
        cases hstep
        cases hh : s.streamHeld with
        | false => exact Or.inl (by simp [hh])
        | true => exact Or.inr ⟨rfl, by simp [hh]⟩
  · intro hrec s2 hstep
    unfold recStep at hstep
    rw [hrec] at hstep
    simp only [if_true, reduceIte] at hstep
    cases hstep
    have hh : s.streamHeld = true := by rw [hI.1, hrec]
    exact ⟨by simp [hh], rfl⟩

/-- Witness for C1: two completed sessions with a failed start in
between end with two starts and two releases. -/
theorem claim_C1_witness :
    recRun recInit
        [RecEvent.startOk, RecEvent.stopClick, RecEvent.startErr,
          RecEvent.startOk, RecEvent.stopClick] =
      some ⟨false, false, 2, 2⟩ ∧
    (RecState.mk false false 2 2).releaseCount = (RecState.mk false false 2 2).startCount := by
  refine ⟨by decide, ?_⟩
  exact (claim_C1_release_per_start
    [RecEvent.startOk, RecEvent.stopClick, RecEvent.startErr,
      RecEvent.startOk, RecEvent.stopClick]
    ⟨false, false, 2, 2⟩ (by decide)).2.1 rfl

/-- Shape of the file the onstop handler emits, for any recorder
encoding: the blob tag defaults to audio/webm, the content is the
concatenated chunks, and the extension is ogg exactly when the tag
mentions ogg. -/
theorem onstopFile_fields (recMime : String) (chunks : List (List ℕ)) :
    (onstopFile recMime chunks).mime = (if recMime = "" then "audio/webm" else recMime) ∧
    (onstopFile recMime chunks).content = chunks.flatten ∧
    ((onstopFile recMime chunks).name = "recording.ogg" ↔
      containsSub (onstopFile recMime chunks).mime.data "ogg".data = true) ∧
    ((onstopFile recMime chunks).name = "recording.webm" ↔
      containsSub (onstopFile recMime chunks).mime.data "ogg".data = false) := by
  refine ⟨rfl, rfl, ?_, ?_⟩
  · unfold onstopFile
    cases hb : containsSub (if recMime = "" then "audio/webm" else recMime).data "ogg".data
    · simp only [hb, Bool.false_eq_true, reduceIte]
      constructor
      · intro hc
        exact absurd hc (by decide)
      · intro hc
        cases hc
    · simp only [hb, reduceIte]
      constructor
      · intro _
        trivial
      · intro _
        decide
  · unfold onstopFile
    cases hb : containsSub (if recMime = "" then "audio/webm" else recMime).data "ogg".data
    · simp only [hb, Bool.false_eq_true, reduceIte]
      constructor
      · intro _
        trivial
      · intro _
        decide
    · simp only [hb, reduceIte]
      constructor
      · intro hc
        exact absurd hc (by decide)
      · intro hc
        cases hc

/-- C8: the negotiated encoding is the first supported entry of the
ordered preference list, or empty when none is supported; on stop the
chunks become one blob tagged with that encoding (generic audio/webm
default when it is empty) and the emitted file is named recording.ogg
exactly when the tag mentions ogg and recording.webm otherwise. -/
theorem claim_C8_encoding (supported : String → Bool) (chunks : List (List ℕ)) :
    pickMimeType supported =
      (if supported "audio/webm;codecs=opus" then "audio/webm;codecs=opus"
       else if supported "audio/webm" then "audio/webm"
       else if supported "audio/ogg;codecs=opus" then "audio/ogg;codecs=opus"
       else if supported "audio/ogg" then "audio/ogg"
       else "") ∧
    (onstopFile (pickMimeType supported) chunks).mime =
      (if pickMimeType supported = "" then "audio/webm" else pickMimeType supported) ∧
    (onstopFile (pickMimeType supported) chunks).content = chunks.flatten ∧
    ((onstopFile (pickMimeType supported) chunks).name = "recording.ogg" ↔
      containsSub (onstopFile (pickMimeType supported) chunks).mime.data "ogg".data = true) ∧
    ((onstopFile (pickMimeType supported) chunks).name = "recording.webm" ↔
      containsSub (onstopFile (pickMimeType supported) chunks).mime.data "ogg".data = false) := by
  have hfields := onstopFile_fields (pickMimeType supported) chunks
  refine ⟨?_, hfields.1, hfields.2.1, hfields.2.2.1, hfields.2.2.2⟩
  unfold pickMimeType mimeCandidates
  cases h1 : supported "audio/webm;codecs=opus" <;>
    cases h2 : supported "audio/webm" <;>
      cases h3 : supported "audio/ogg;codecs=opus" <;>
        cases h4 : supported "audio/ogg" <;>
          simp [List.find?, h1, h2, h3, h4]

end VoiceIdeas
